import Mathlib

/-!
Verification of the persistent-connection manager in
src/src/wormhole/_connect.py: the retry policy (backoffPolicy), the
disconnect-notifying protocol proxy (_ReconnectingProtocolProxy), the
waiter registry (_unawait) and the reconnecting client state machine
(_ClientMachine), shallowly embedded as pure Lean functions.
-/

namespace Wormhole

/-- Retry policy from backoffPolicy in _connect.py (lines 144-146):
the inner closure is policy(attempt) = min(initialDelay * (factor ** attempt), maxDelay) + jitter().
Python floats are modelled as rationals; the jitter draw is passed as an
explicit argument. -/
def backoffPolicy (initialDelay maxDelay factor : ℚ) (attempt : ℕ) (jitterValue : ℚ) : ℚ :=
  min (initialDelay * factor ^ attempt) maxDelay + jitterValue

/-- The module-level default policy _defaultPolicy = backoffPolicy() with the default
parameters initialDelay=1.0, maxDelay=60.0, factor=1.5. -/
def defaultPolicy (attempt : ℕ) (jitterValue : ℚ) : ℚ :=
  backoffPolicy 1 60 (3/2) attempt jitterValue

/-- Delay formula written from the spec's words (for comparison with the code):
delay = min(initialDelay * factor^(attempt-1), maxDelay) + jitter, at the default
parameters. -/
def specDefaultDelay (attempt : ℕ) (jitterValue : ℚ) : ℚ :=
  min ((1 : ℚ) * (3/2) ^ (attempt - 1)) 60 + jitterValue

/-- Observable actions of _ReconnectingProtocolProxy.connectionLost: the call into the
wrapped protocol's connectionLost, and the invocation of the lostNotification callback. -/
inductive LostEvent (Reason : Type) where
  | wrappedLost (reason : Reason)
  | notified (reason : Reason)
deriving DecidableEq

/-- Embedding of _ReconnectingProtocolProxy.connectionLost (lines 52-63):
it runs the wrapped protocol's connectionLost(reason) inside a try block and invokes
lostNotification(reason) in the finally clause, returning the wrapped result. The
wrapped call may raise (Except); the notification runs either way, after the wrapped
call; the pair's second component is the ordered action trace. -/
def connectionLost {Reason E R : Type} (wrappedConnectionLost : Reason → Except E R)
    (reason : Reason) : Except E R × List (LostEvent Reason) :=
  (wrappedConnectionLost reason, [LostEvent.wrappedLost reason, LostEvent.notified reason])

/-- Embedding of _ClientMachine._unawait (lines 482-490): the pending list is drained
(reassigned to []) before the loop fires each drained deferred, in order, with the value.
A fired deferred's callback may re-register waiters (regsOf); those land in the freshly
emptied pending list, in callback order. Returns (fired pairs, pending list afterwards). -/
def unawait {W V : Type} (value : V) (regsOf : W → List W) : List W → List (W × V) × List W
  | [] => ([], [])
  | w :: ws =>
    ((w, value) :: (unawait value regsOf ws).1, regsOf w ++ (unawait value regsOf ws).2)

/-- The eight automat states of _ClientMachine. -/
inductive S where
  | init
  | connectingFirstTime
  | connecting
  | waiting
  | connected
  | disconnecting
  | restarting
  | stopped
deriving DecidableEq

/-- The _ReconnectingProtocolProxy as a value: it carries the application protocol it
wraps (its _protocol attribute). The lostNotification side is modelled by the
clientDisconnected machine event. -/
structure Proxy (P : Type) where
  protocol : P
deriving DecidableEq

/-- _DisconnectFactory.buildProtocol (lines 87-100): wraps the protocol built by the
caller-supplied factory in a _ReconnectingProtocolProxy. -/
def buildProtocol {A P : Type} (factoryBuild : A → P) (addr : A) : Proxy P :=
  { protocol := factoryBuild addr }

/-- Inputs of the _ClientMachine, one per @_machine.input(). _connectionMade carries the
proxy built by the _DisconnectFactory; _connectionFailed carries the failure. -/
inductive Ev (Conn Fail : Type) where
  | start
  | startAndFailTheFirstTime
  | stop
  | connectionMade (p : Proxy Conn)
  | connectionFailed (f : Fail)
  | reconnect
  | clientDisconnected
  | whenConnected
deriving DecidableEq

/-- Values with which a whenConnected deferred can be fired: a live connection,
the original first-attempt failure (fail-fast mode), or Failure(CancelledError()). -/
inductive WVal (Conn Fail : Type) where
  | conn (c : Conn)
  | fail (f : Fail)
  | cancelled
deriving DecidableEq

/-- The deferred an input returns to its caller (via the _firstResult collector):
a fresh pending whenConnected deferred, a fresh pending stop deferred, an
already-fired succeed(connection), succeed(None), or fail(CancelledError()). -/
inductive DRes (Conn Fail : Type) where
  | pendingAwait (i : ℕ)
  | pendingStop (i : ℕ)
  | doneConn (c : Conn)
  | doneNone
  | failCancelled
deriving DecidableEq

/-- Machine state: the automat state plus the instance attributes of _ClientMachine,
with deferreds named by numeric ids. firedAwait and firedStop record, in firing order,
which deferreds have been called back and with what; connectsIssued counts executions of
the _connect output; connectInProgress, retryCall and live track whether an
endpoint.connect attempt is unresolved, a callLater retry timer is pending, and a built
connection is currently open. -/
structure M (Conn Fail : Type) where
  state : S
  failedAttempts : ℕ
  currentConnection : Option Conn
  retryCall : Bool
  connectInProgress : Bool
  cancelRequested : Bool
  awaiting : List ℕ
  stopWaiters : List ℕ
  nextId : ℕ
  firedAwait : List (ℕ × WVal Conn Fail)
  firedStop : List ℕ
  connectsIssued : ℕ
  live : Bool
deriving DecidableEq

/-- The machine as built by _ClientMachine.__init__. -/
def M0 {Conn Fail : Type} : M Conn Fail :=
  { state := S.init
    failedAttempts := 0
    currentConnection := none
    retryCall := false
    connectInProgress := false
    cancelRequested := false
    awaiting := []
    stopWaiters := []
    nextId := 0
    firedAwait := []
    firedStop := []
    connectsIssued := 0
    live := false }

variable {Conn Fail : Type}

/-- Set the automat state entered by a transition. -/
def setState (m : M Conn Fail) (s : S) : M Conn Fail := { m with state := s }

/-- The _unawait helper as it acts on the machine: drain _awaitingConnected and fire
every drained deferred, in order, with the value. -/
def unawaitM (m : M Conn Fail) (v : WVal Conn Fail) : M Conn Fail :=
  { m with awaiting := [], firedAwait := m.firedAwait ++ m.awaiting.map fun i => (i, v) }

/-- Output _connect: issue a new endpoint.connect attempt, overwriting
_connectionInProgress with the new (unresolved, uncancelled) deferred. -/
def connectM (m : M Conn Fail) : M Conn Fail :=
  { m with connectInProgress := true, cancelRequested := false,
           connectsIssued := m.connectsIssued + 1 }

/-- Output _waitForStop: append a fresh deferred to _stopWaiters (it is returned to the
stop caller as DRes.pendingStop m.nextId). -/
def waitForStopM (m : M Conn Fail) : M Conn Fail :=
  { m with stopWaiters := m.stopWaiters ++ [m.nextId], nextId := m.nextId + 1 }

/-- Output _stopConnecting: cancel the in-flight connect attempt. -/
def stopConnectingM (m : M Conn Fail) : M Conn Fail := { m with cancelRequested := true }

/-- Output _stopRetrying: cancel and delete the pending retry timer. -/
def stopRetryingM (m : M Conn Fail) : M Conn Fail := { m with retryCall := false }

/-- Output _finishStopping: drain _stopWaiters, then fire each drained deferred
with None (success). -/
def finishStoppingM (m : M Conn Fail) : M Conn Fail :=
  { m with stopWaiters := [], firedStop := m.firedStop ++ m.stopWaiters }

/-- Output _cancelConnectWaiters: fire all pending whenConnected deferreds with
Failure(CancelledError()). -/
def cancelConnectWaitersM (m : M Conn Fail) : M Conn Fail := unawaitM m WVal.cancelled

/-- Output _wait: increment _failedAttempts and schedule the retry timer via the policy. -/
def waitM (m : M Conn Fail) : M Conn Fail :=
  { m with failedAttempts := m.failedAttempts + 1, retryCall := true }

/-- Output _notifyWaiters(protocol): reset _failedAttempts, store the proxy's wrapped
protocol (protocol._protocol) as _currentConnection, and fire all pending whenConnected
deferreds with it. -/
def notifyWaitersM (m : M Conn Fail) (p : Proxy Conn) : M Conn Fail :=
  unawaitM { m with failedAttempts := 0, currentConnection := some p.protocol }
    (WVal.conn p.protocol)

/-- Output _notifyInitialConnectionFailed(f): fire all pending whenConnected deferreds
with the original failure f. -/
def notifyInitialConnectionFailedM (m : M Conn Fail) (f : Fail) : M Conn Fail :=
  unawaitM m (WVal.fail f)

/-- Output _forgetConnection: delete _currentConnection. -/
def forgetConnectionM (m : M Conn Fail) : M Conn Fail := { m with currentConnection := none }

/-- Output _awaitingConnection: append a fresh deferred to _awaitingConnected (returned
to the whenConnected caller as DRes.pendingAwait m.nextId). -/
def awaitingConnectionM (m : M Conn Fail) : M Conn Fail :=
  { m with awaiting := m.awaiting ++ [m.nextId], nextId := m.nextId + 1 }

/-- Output _resetFailedAttempts. -/
def resetFailedAttemptsM (m : M Conn Fail) : M Conn Fail := { m with failedAttempts := 0 }

/-- Delivering _connectionFailed resolves the in-flight connect deferred (consuming any
pending cancellation). -/
def deliverResolved (m : M Conn Fail) : M Conn Fail :=
  { m with connectInProgress := false, cancelRequested := false }

/-- Delivering _connectionMade resolves the in-flight connect deferred and a built
connection becomes live. -/
def deliverMade (m : M Conn Fail) : M Conn Fail :=
  { m with connectInProgress := false, live := true }

/-- Delivering _clientDisconnected means the live connection has closed. -/
def deliverClosed (m : M Conn Fail) : M Conn Fail := { m with live := false }

/-- Delivering _reconnect consumes the pending retry timer. -/
def deliverReconnect (m : M Conn Fail) : M Conn Fail := { m with retryCall := false }

/-- The automat transition table of _ClientMachine (lines 494-604), one arm per
state.upon(input, enter=..., outputs=[...]) declaration, outputs composed in their
listed order. A state/input pair with no declared transition is none (automat raises
NoTransition). The second component is the deferred returned through the _firstResult
collector, for the inputs that declare one. -/
def stepM (m : M Conn Fail) (e : Ev Conn Fail) :
    Option (M Conn Fail × Option (DRes Conn Fail)) :=
  match m.state, e with
  | S.init, Ev.start => some (connectM (setState m S.connecting), none)
  | S.init, Ev.startAndFailTheFirstTime =>
      some (connectM (setState m S.connectingFirstTime), none)
  | S.init, Ev.stop => some (setState m S.stopped, some DRes.doneNone)
  | S.init, Ev.whenConnected =>
      some (awaitingConnectionM m, some (DRes.pendingAwait m.nextId))
  | S.connectingFirstTime, Ev.start => some (m, none)
  | S.connectingFirstTime, Ev.stop =>
      some (stopConnectingM (waitForStopM (setState m S.disconnecting)),
            some (DRes.pendingStop m.nextId))
  | S.connectingFirstTime, Ev.connectionMade p =>
      some (notifyWaitersM (deliverMade (setState m S.connected)) p, none)
  | S.connectingFirstTime, Ev.connectionFailed f =>
      some (notifyInitialConnectionFailedM (deliverResolved (setState m S.stopped)) f, none)
  | S.connectingFirstTime, Ev.whenConnected =>
      some (awaitingConnectionM m, some (DRes.pendingAwait m.nextId))
  | S.connecting, Ev.start => some (m, none)
  | S.connecting, Ev.stop =>
      some (stopConnectingM (waitForStopM (setState m S.disconnecting)),
            some (DRes.pendingStop m.nextId))
  | S.connecting, Ev.connectionMade p =>
      some (notifyWaitersM (deliverMade (setState m S.connected)) p, none)
  | S.connecting, Ev.connectionFailed _ =>
      some (waitM (deliverResolved (setState m S.waiting)), none)
  | S.connecting, Ev.whenConnected =>
      some (awaitingConnectionM m, some (DRes.pendingAwait m.nextId))
  | S.waiting, Ev.start => some (m, none)
  | S.waiting, Ev.stop =>
      some (finishStoppingM (stopRetryingM (cancelConnectWaitersM
              (waitForStopM (setState m S.stopped)))),
            some (DRes.pendingStop m.nextId))
  | S.waiting, Ev.reconnect =>
      some (connectM (deliverReconnect (setState m S.connecting)), none)
  | S.waiting, Ev.whenConnected =>
      some (awaitingConnectionM m, some (DRes.pendingAwait m.nextId))
  | S.connected, Ev.start => some (m, none)
  | S.connected, Ev.stop =>
      some (waitForStopM (setState m S.disconnecting), some (DRes.pendingStop m.nextId))
  | S.connected, Ev.clientDisconnected =>
      some (waitM (forgetConnectionM (deliverClosed (setState m S.waiting))), none)
  | S.connected, Ev.whenConnected =>
      match m.currentConnection with
      | some c => some (m, some (DRes.doneConn c))
      | none => none
  | S.disconnecting, Ev.start => some (resetFailedAttemptsM (setState m S.restarting), none)
  | S.disconnecting, Ev.stop => some (waitForStopM m, some (DRes.pendingStop m.nextId))
  | S.disconnecting, Ev.clientDisconnected =>
      some (forgetConnectionM (finishStoppingM (cancelConnectWaitersM
              (deliverClosed (setState m S.stopped)))), none)
  | S.disconnecting, Ev.connectionFailed _ =>
      some (finishStoppingM (cancelConnectWaitersM (deliverResolved (setState m S.stopped))),
            none)
  | S.disconnecting, Ev.whenConnected =>
      some (awaitingConnectionM m, some (DRes.pendingAwait m.nextId))
  | S.restarting, Ev.start => some (m, none)
  | S.restarting, Ev.stop =>
      some (waitForStopM (setState m S.disconnecting), some (DRes.pendingStop m.nextId))
  | S.restarting, Ev.clientDisconnected =>
      some (connectM (finishStoppingM (deliverClosed (setState m S.connecting))), none)
  | S.restarting, Ev.whenConnected =>
      some (awaitingConnectionM m, some (DRes.pendingAwait m.nextId))
  | S.stopped, Ev.start => some (connectM (setState m S.connecting), none)
  | S.stopped, Ev.stop => some (m, some DRes.doneNone)
  | S.stopped, Ev.whenConnected => some (m, some DRes.failCancelled)
  | _, _ => none

/-- Which events the single-threaded environment can actually deliver: connect-deferred
callbacks (_connectionMade, _connectionFailed) only while an attempt is unresolved, and
_connectionMade not for a cancelled attempt; _reconnect only while the retry timer is
pending; _clientDisconnected only while a connection is live. While a cancellation is
pending, Deferred.cancel fires the errback synchronously inside stop() (the source notes
this synchronously triggers _connectionFailed in the _disconnecting state), so no other
event can be delivered first. -/
def validEv (m : M Conn Fail) : Ev Conn Fail → Bool
  | Ev.connectionMade _ => m.connectInProgress && !m.cancelRequested
  | Ev.connectionFailed _ => m.connectInProgress
  | Ev.reconnect => m.retryCall && !m.cancelRequested
  | Ev.clientDisconnected => m.live && !m.cancelRequested
  | _ => !m.cancelRequested

/-- Machine states reachable from the initial machine by deliverable, defined
transitions. -/
inductive Reachable : M Conn Fail → Prop where
  | base : Reachable M0
  | step {m m' : M Conn Fail} {e : Ev Conn Fail} {r : Option (DRes Conn Fail)} :
      Reachable m → validEv m e = true → stepM m e = some (m', r) → Reachable m'

/-- Run a sequence of events, requiring each to be deliverable and defined. -/
def runV : M Conn Fail → List (Ev Conn Fail) → Option (M Conn Fail)
  | m, [] => some m
  | m, e :: es =>
    if validEv m e then
      match stepM m e with
      | some (m', _) => runV m' es
      | none => none
    else none

/-- Core state-correlation invariant of the reachable machine: the retry timer is
pending exactly in Waiting; no connection attribute before the first connection; a live
connection implies the attribute is set, no cancellation pending, and no attempt in
flight; an attempt is in flight in (and only in) the two connecting states and possibly
the shutdown states; a pending cancellation happens only in Disconnecting with the
attempt unresolved; the shutdown states keep a live connection (unless mid-cancel) with
the attempt counter already reset; stop waiters pend only in the shutdown states; a
connection is live only in Connected and the shutdown states. -/
def InvCore (m : M Conn Fail) : Prop :=
  (m.retryCall = true ↔ m.state = S.waiting) ∧
  (m.state = S.init ∨ m.state = S.connectingFirstTime → m.currentConnection = none) ∧
  (m.state = S.connected → m.live = true ∧ m.failedAttempts = 0) ∧
  (m.live = true →
    m.currentConnection.isSome ∧ m.cancelRequested = false ∧ m.connectInProgress = false) ∧
  (m.state = S.connectingFirstTime ∨ m.state = S.connecting → m.connectInProgress = true) ∧
  (m.state = S.init ∨ m.state = S.waiting ∨ m.state = S.connected ∨ m.state = S.stopped →
    m.connectInProgress = false) ∧
  (m.cancelRequested = true → m.state = S.disconnecting ∧ m.connectInProgress = true) ∧
  (m.state = S.disconnecting → m.cancelRequested = false →
    m.live = true ∧ m.failedAttempts = 0) ∧
  (m.state = S.restarting →
    m.live = true ∧ m.failedAttempts = 0 ∧ m.cancelRequested = false) ∧
  (m.state ≠ S.disconnecting → m.state ≠ S.restarting → m.stopWaiters = []) ∧
  (m.live = true →
    m.state = S.connected ∨ m.state = S.disconnecting ∨ m.state = S.restarting)

/-- Bookkeeping invariant for stop-waiter deferreds: ids are allocated fresh from
nextId, so the pending list and the fired log are duplicate-free and disjoint. -/
def InvIds (m : M Conn Fail) : Prop :=
  (∀ i ∈ m.stopWaiters, i < m.nextId) ∧
  (∀ i ∈ m.firedStop, i < m.nextId) ∧
  m.stopWaiters.Nodup ∧
  m.firedStop.Nodup ∧
  (∀ i ∈ m.stopWaiters, i ∉ m.firedStop)

/-- A stop caller's deferred has fired successfully: it was succeed(None), or it was a
queued stop waiter whose id is in the fired log. -/
def Fires (r : DRes Conn Fail) (m : M Conn Fail) : Prop :=
  r = DRes.doneNone ∨ ∃ i, r = DRes.pendingStop i ∧ i ∈ m.firedStop

/-- Events internal to the machine's own shutdown (connect-attempt resolution and
connection-close notifications): no external caller input among them. -/
def OnlyInternal (es : List (Ev Conn Fail)) : Prop :=
  ∀ e ∈ es, (∃ f, e = Ev.connectionFailed f) ∨ e = Ev.clientDisconnected

/-- Two stop results are distinct completion signals: if both are queued waiters they
have different ids. -/
def DistinctStops (r₁ r₂ : DRes Conn Fail) : Prop :=
  ∀ i j, r₁ = DRes.pendingStop i → r₂ = DRes.pendingStop j → i ≠ j

/-- Specification of calling stop twice from a machine state m: each call returns its
own completion deferred; after at most the machine's own internal shutdown events
(never an external input), the machine is Stopped with no stop waiter pending, the
fired log is duplicate-free, both returned deferreds have fired (with success — the
model only ever fires stop waiters with None), they are distinct signals, and a stop
from Init or Stopped returns an already-fired succeed(None). -/
def StopTwiceSpec (m : M Conn Fail) : Prop :=
  ∃ m₁ r₁ gap m₂ m₃ r₂ tail m₄,
    stepM m Ev.stop = some (m₁, some r₁) ∧
    OnlyInternal gap ∧ runV m₁ gap = some m₂ ∧ m₂.cancelRequested = false ∧
    stepM m₂ Ev.stop = some (m₃, some r₂) ∧
    OnlyInternal tail ∧ runV m₃ tail = some m₄ ∧
    m₄.state = S.stopped ∧ m₄.stopWaiters = [] ∧ m₄.firedStop.Nodup ∧
    Fires r₁ m₄ ∧ Fires r₂ m₄ ∧ DistinctStops r₁ r₂ ∧
    (m.state = S.init ∨ m.state = S.stopped → r₁ = DRes.doneNone)

set_option maxHeartbeats 2000000 in
/-- The core invariant holds in every reachable machine state. -/
theorem invCore_reachable {m : M Conn Fail} (h : Reachable m) : InvCore m := by
  induction h with
  | base => simp [InvCore, M0]
  | step hR hv hs ih =>
    rename_i m m' e r
    obtain ⟨i1, i2, i3, i4, i5, i6, i7, i8, i9, i10, i11⟩ := ih
    obtain ⟨st, fa, cc, rc, ip, cr, aw, sw, ni, fA, fS, ci, lv⟩ := m
    cases e <;> cases st <;> (try cases cc) <;> simp only [stepM] at hs <;>
      first
      | exact Option.noConfusion hs
      | (injection hs with hp; injection hp with h1 h2; subst h1;
         simp_all [InvCore, validEv, setState, connectM, waitForStopM, stopConnectingM,
           finishStoppingM, cancelConnectWaitersM, stopRetryingM, waitM, notifyWaitersM,
           notifyInitialConnectionFailedM, forgetConnectionM, awaitingConnectionM,
           resetFailedAttemptsM, deliverResolved, deliverMade, deliverClosed, deliverReconnect,
           unawaitM])

set_option maxHeartbeats 2000000 in
/-- The stop-waiter bookkeeping invariant holds in every reachable machine state. -/
theorem invIds_reachable {m : M Conn Fail} (h : Reachable m) : InvIds m := by
  induction h with
  | base => simp [InvIds, M0]
  | step hR hv hs ih =>
    rename_i m m' e r
    obtain ⟨i1, i2, i3, i4, i5⟩ := ih
    obtain ⟨st, fa, cc, rc, ip, cr, aw, sw, ni, fA, fS, ci, lv⟩ := m
    cases e <;> cases st <;> (try cases cc) <;> simp only [stepM] at hs <;>
      first
      | exact Option.noConfusion hs
      | (injection hs with hp; injection hp with h1 h2; subst h1;
         simp_all [InvIds, validEv, setState, connectM, waitForStopM, stopConnectingM,
           finishStoppingM, cancelConnectWaitersM, stopRetryingM, waitM, notifyWaitersM,
           notifyInitialConnectionFailedM, forgetConnectionM, awaitingConnectionM,
           resetFailedAttemptsM, deliverResolved, deliverMade, deliverClosed, deliverReconnect,
           unawaitM, List.nodup_append, List.Disjoint])
    all_goals
      first
      | exact ⟨fun i hi => Nat.lt_succ_of_lt (i1 i hi),
               fun i hi => Nat.lt_succ_of_lt (i2 i hi)⟩
      | exact ⟨fun i hi => hi.elim (fun h => Nat.lt_succ_of_lt (i1 i h)) (fun h => by omega),
               fun i hi => Nat.lt_succ_of_lt (i2 i hi),
               fun a ha he => absurd (i1 a ha) (by omega),
               fun i hi hf => hi.elim (fun h => i5 i h hf)
                 (fun h => absurd (i2 i hf) (by omega))⟩
      | exact ⟨fun i hi => hi.elim (i2 i) (i1 i), fun a ha hb => i5 a hb ha⟩
      | exact ⟨fun i hi => hi.elim (fun h => Nat.lt_succ_of_lt (i2 i h))
                 (fun h => h.elim (fun h2 => Nat.lt_succ_of_lt (i1 i h2)) (fun h2 => by omega)),
               fun a ha he => absurd (i1 a ha) (by omega),
               fun a ha => ⟨fun hb => i5 a hb ha, fun he => absurd (i2 a ha) (by omega)⟩⟩

/-- Running a deliverable event sequence from a reachable state stays reachable. -/
theorem runV_reachable {m m' : M Conn Fail} {es : List (Ev Conn Fail)} (h : Reachable m)
    (hr : runV m es = some m') : Reachable m' := by
  induction es generalizing m with
  | nil =>
    simp only [runV, Option.some.injEq] at hr
    exact hr ▸ h
  | cons e es ih =>
    rw [runV] at hr
    by_cases hv : validEv m e = true
    · rw [if_pos hv] at hr
      cases hstep : stepM m e with
      | none => rw [hstep] at hr; exact Option.noConfusion hr
      | some p =>
        obtain ⟨m₁, r⟩ := p
        rw [hstep] at hr
        exact ih (Reachable.step h hv hstep) hr
    · rw [if_neg hv] at hr
      exact Option.noConfusion hr

/-- C1: the spec and the docstring say the default retry policy computes
delay(n) = min(initialDelay * factor^(n-1), maxDelay) + jitter (so delay(1) would be
initialDelay = 1), but the code computes factor ** attempt without the -1: at attempt 1
with zero jitter the code yields 1.5, not 1, and at attempt 1 with jitter 3/5 the delay
2.1 already escapes the claimed interval, whose right end would be 2. -/
theorem backoffPolicy_attempt_exponent_bug :
    defaultPolicy 1 0 = 3/2 ∧
    specDefaultDelay 1 0 = 1 ∧
    defaultPolicy 1 0 ≠ specDefaultDelay 1 0 ∧
    ¬ defaultPolicy 1 (3/5) < specDefaultDelay 1 0 + 1 := by
  norm_num [defaultPolicy, backoffPolicy, specDefaultDelay]

/-- C4 counterexample: connectionLost does not invoke the disconnect callback before
propagating the close to the wrapped protocol — the trace begins with the wrapped call,
and is not callback-first as the claim requires. -/
theorem connectionLost_callback_order_refuted :
    (connectionLost (fun r : ℕ => (Except.ok r : Except Unit ℕ)) 5).2.head? =
      some (LostEvent.wrappedLost 5) ∧
    (connectionLost (fun r : ℕ => (Except.ok r : Except Unit ℕ)) 5).2 ≠
      [LostEvent.notified 5, LostEvent.wrappedLost 5] := by
  exact ⟨rfl, by decide⟩

/-- C4 (amended): for every wrapped protocol behaviour and every close reason,
connectionLost returns the wrapped protocol's own connectionLost result unmodified
(value or raised exception alike, thanks to try/finally), and invokes the disconnect
callback exactly once with the unaltered reason — after, not before, propagating the
close to the wrapped protocol. -/
theorem connectionLost_callback_amended {Reason E R : Type}
    (wrappedConnectionLost : Reason → Except E R) (reason : Reason) :
    (connectionLost wrappedConnectionLost reason).1 = wrappedConnectionLost reason ∧
    (connectionLost wrappedConnectionLost reason).2 =
      [LostEvent.wrappedLost reason, LostEvent.notified reason] ∧
    ((connectionLost wrappedConnectionLost reason).2.filter fun ev =>
        match ev with
        | LostEvent.notified _ => true
        | _ => false) = [LostEvent.notified reason] := by
  exact ⟨rfl, rfl, rfl⟩

/-- C8: _unawait drains the pending list before firing: the fired deferreds are exactly
the previously pending ones, in registration order, each with the delivered value; the
waiters registered by the callbacks during resolution form the new pending list and none
of them (being fresh) is fired by this resolution. -/
theorem unawait_drain_then_resolve {W V : Type} (value : V) (regsOf : W → List W)
    (pending : List W)
    (hfresh : ∀ w ∈ pending, ∀ w' ∈ regsOf w, w' ∉ pending) :
    (unawait value regsOf pending).1 = pending.map (fun w => (w, value)) ∧
    (unawait value regsOf pending).2 = pending.flatMap regsOf ∧
    ∀ w' ∈ (unawait value regsOf pending).2, ∀ v, (w', v) ∉ (unawait value regsOf pending).1 := by
  have h1 : ∀ l : List W, (unawait value regsOf l).1 = l.map (fun w => (w, value)) := by
    intro l
    induction l with
    | nil => rfl
    | cons w ws ih => simp [unawait, ih]
  have h2 : ∀ l : List W, (unawait value regsOf l).2 = l.flatMap regsOf := by
    intro l
    induction l with
    | nil => rfl
    | cons w ws ih => simp [unawait, ih]
  refine ⟨h1 pending, h2 pending, ?_⟩
  intro w' hw' v hmem
  rw [h2 pending, List.mem_flatMap] at hw'
  obtain ⟨w, hw, hreg⟩ := hw'
  rw [h1 pending, List.mem_map] at hmem
  obtain ⟨w₀, hw₀, heq⟩ := hmem
  exact hfresh w hw w' hreg (by cases heq; exact hw₀)

/-- Witness for C8 at pending = [0, 1], value = true, with each callback registering the
fresh waiter 5. -/
theorem unawait_drain_then_resolve_witness :
    (∀ w ∈ [0, 1], ∀ w' ∈ (fun _ : ℕ => [5]) w, w' ∉ [0, 1]) ∧
    ((unawait true (fun _ : ℕ => [5]) [0, 1]).1 = [0, 1].map (fun w => (w, true)) ∧
     (unawait true (fun _ : ℕ => [5]) [0, 1]).2 = [0, 1].flatMap (fun _ : ℕ => [5]) ∧
     ∀ w' ∈ (unawait true (fun _ : ℕ => [5]) [0, 1]).2, ∀ v,
       (w', v) ∉ (unawait true (fun _ : ℕ => [5]) [0, 1]).1) :=
  ⟨by decide, unawait_drain_then_resolve true (fun _ => [5]) [0, 1] (by decide)⟩

/-- C3 counterexample: after start, a successful connection, and stop, the machine is
reachable, its state is Disconnecting (stop from Connected runs _waitForStop and
_disconnect but not _forgetConnection), and _currentConnection is still set — so the
claimed iff between the attribute and the Connected state is false. -/
theorem currentConnection_iff_connected_refuted :
    ¬ ∀ m : M ℕ ℕ, Reachable m → (m.currentConnection.isSome ↔ m.state = S.connected) := by
  intro hclaim
  have h := hclaim
    { state := S.disconnecting, failedAttempts := 0, currentConnection := some 7,
      retryCall := false, connectInProgress := false, cancelRequested := false,
      awaiting := [], stopWaiters := [0], nextId := 1, firedAwait := [], firedStop := [],
      connectsIssued := 1, live := true }
    (runV_reachable Reachable.base
      (show runV (M0 : M ℕ ℕ) [Ev.start, Ev.connectionMade ⟨7⟩, Ev.stop] = some _ from rfl))
  simp at h

/-- C3 (amended): in every reachable state the current-connection attribute is set
whenever the machine is Connected (and whenever a connection is live), and it is absent
in Init and ConnectingFirstTime; but after leaving Connected it may remain set — in
particular it is still set in Disconnecting reached by stop from Connected — so only
these directions of the claimed iff hold. -/
theorem currentConnection_connected_amended {m : M Conn Fail} (h : Reachable m) :
    (m.state = S.connected → m.currentConnection.isSome) ∧
    (m.state = S.init ∨ m.state = S.connectingFirstTime → m.currentConnection = none) ∧
    (m.live = true → m.currentConnection.isSome) := by
  obtain ⟨-, i2, i3, i4, -⟩ := invCore_reachable h
  exact ⟨fun hc => (i4 (i3 hc).1).1, i2, fun hl => (i4 hl).1⟩

/-- Witness for C3 (amended) at the initial machine. -/
theorem currentConnection_connected_amended_witness :
    ((M0 : M ℕ ℕ).state = S.connected → (M0 : M ℕ ℕ).currentConnection.isSome) ∧
    ((M0 : M ℕ ℕ).state = S.init ∨ (M0 : M ℕ ℕ).state = S.connectingFirstTime →
      (M0 : M ℕ ℕ).currentConnection = none) ∧
    ((M0 : M ℕ ℕ).live = true → (M0 : M ℕ ℕ).currentConnection.isSome) :=
  currentConnection_connected_amended Reachable.base

/-- C2: along every deliverable transition of the reachable machine, the failed-attempt
counter never decreases except on a successful connection (_connectionMade): every other
transition leaves it unchanged or increments it. (The _resetFailedAttempts output on
start in Disconnecting runs only when the counter is already 0, since a caller can reach
Disconnecting at rest only with the counter reset.) -/
theorem failedAttempts_monotone_except_success {m m' : M Conn Fail} {e : Ev Conn Fail}
    {r : Option (DRes Conn Fail)} (h : Reachable m) (hv : validEv m e = true)
    (hs : stepM m e = some (m', r)) (hnm : ∀ p, e ≠ Ev.connectionMade p) :
    m.failedAttempts ≤ m'.failedAttempts := by
  obtain ⟨-, -, -, -, -, -, -, i8, i9, -, -⟩ := invCore_reachable h
  obtain ⟨st, fa, cc, rc, ip, cr, aw, sw, ni, fA, fS, ci, lv⟩ := m
  cases e <;> cases st <;> (try cases cc) <;> simp only [stepM] at hs <;>
    first
    | exact Option.noConfusion hs
    | exact absurd rfl (hnm _)
    | (injection hs with hp; injection hp with h1 h2; subst h1;
       simp_all [validEv, setState, connectM, waitForStopM, stopConnectingM,
         finishStoppingM, cancelConnectWaitersM, stopRetryingM, waitM,
         notifyInitialConnectionFailedM, forgetConnectionM, awaitingConnectionM,
         resetFailedAttemptsM, deliverResolved, deliverClosed, deliverReconnect,
         unawaitM])

/-- Witness for C2 at the initial machine and the stop input. -/
theorem failedAttempts_monotone_except_success_witness :
    validEv (M0 : M ℕ ℕ) Ev.stop = true ∧
    (M0 : M ℕ ℕ).failedAttempts ≤ (setState (M0 : M ℕ ℕ) S.stopped).failedAttempts :=
  ⟨rfl, failedAttempts_monotone_except_success (e := Ev.stop) (r := some DRes.doneNone)
    Reachable.base rfl rfl (fun p => by simp)⟩

/-- C5: in every reachable state, whenConnected is defined, never changes the automat
state (nor the connection attribute, attempt counter, stop waiters or fired log), and
its result is determined by the state: in Connected an already-fired deferred holding
the live connection, in Stopped an already-failed fail(CancelledError()), and in every
other state a fresh pending deferred appended to _awaitingConnected. -/
theorem whenConnected_state_dependent {m : M Conn Fail} (h : Reachable m) :
    ∃ m' res, stepM m Ev.whenConnected = some (m', some res) ∧
      m'.state = m.state ∧ m'.currentConnection = m.currentConnection ∧
      m'.failedAttempts = m.failedAttempts ∧ m'.stopWaiters = m.stopWaiters ∧
      m'.firedAwait = m.firedAwait ∧
      (m.state = S.connected → ∃ c, m.currentConnection = some c ∧
        res = DRes.doneConn c ∧ m' = m) ∧
      (m.state = S.stopped → res = DRes.failCancelled ∧ m' = m) ∧
      (m.state ≠ S.connected → m.state ≠ S.stopped →
        res = DRes.pendingAwait m.nextId ∧ m'.awaiting = m.awaiting ++ [m.nextId]) := by
  have hinv := invCore_reachable h
  obtain ⟨-, -, i3, i4, -⟩ := hinv
  obtain ⟨st, fa, cc, rc, ip, cr, aw, sw, ni, fA, fS, ci, lv⟩ := m
  cases st
  case connected =>
    obtain ⟨c, hc⟩ := Option.isSome_iff_exists.mp (i4 (i3 rfl).1).1
    simp only at hc
    subst hc
    exact ⟨_, _, rfl, rfl, rfl, rfl, rfl, rfl,
      fun _ => ⟨c, rfl, rfl, rfl⟩, by simp, fun hne _ => absurd rfl hne⟩
  case stopped =>
    exact ⟨_, _, rfl, rfl, rfl, rfl, rfl, rfl, by simp, fun _ => ⟨rfl, rfl⟩,
      fun _ hne => absurd rfl hne⟩
  all_goals
    exact ⟨_, _, rfl, rfl, rfl, rfl, rfl, rfl, by simp, by simp, fun _ _ => ⟨rfl, rfl⟩⟩

/-- Witness for C5 at the initial machine: whenConnected in Init registers waiter 0 and
leaves the state Init. -/
theorem whenConnected_state_dependent_witness :
    ∃ m' res, stepM (M0 : M ℕ ℕ) Ev.whenConnected = some (m', some res) ∧
      m'.state = (M0 : M ℕ ℕ).state ∧ m'.currentConnection = (M0 : M ℕ ℕ).currentConnection ∧
      m'.failedAttempts = (M0 : M ℕ ℕ).failedAttempts ∧
      m'.stopWaiters = (M0 : M ℕ ℕ).stopWaiters ∧
      m'.firedAwait = (M0 : M ℕ ℕ).firedAwait ∧
      ((M0 : M ℕ ℕ).state = S.connected → ∃ c, (M0 : M ℕ ℕ).currentConnection = some c ∧
        res = DRes.doneConn c ∧ m' = M0) ∧
      ((M0 : M ℕ ℕ).state = S.stopped → res = DRes.failCancelled ∧ m' = M0) ∧
      ((M0 : M ℕ ℕ).state ≠ S.connected → (M0 : M ℕ ℕ).state ≠ S.stopped →
        res = DRes.pendingAwait (M0 : M ℕ ℕ).nextId ∧
        m'.awaiting = (M0 : M ℕ ℕ).awaiting ++ [(M0 : M ℕ ℕ).nextId]) :=
  whenConnected_state_dependent Reachable.base

/-- C6: a first-attempt failure in fail-fast mode is terminal: from ConnectingFirstTime,
_connectionFailed(f) goes straight to Stopped, schedules no retry timer, issues no new
connect attempt, and fires every pending whenConnected deferred with the original
failure f itself (not a generic cancellation). -/
theorem failFast_first_failure_terminal {m : M Conn Fail} (f : Fail) (h : Reachable m)
    (hst : m.state = S.connectingFirstTime) :
    ∃ m', stepM m (Ev.connectionFailed f) = some (m', none) ∧
      m'.state = S.stopped ∧ m'.retryCall = false ∧
      m'.connectsIssued = m.connectsIssued ∧ m'.awaiting = [] ∧
      m'.firedAwait = m.firedAwait ++ m.awaiting.map (fun i => (i, WVal.fail f)) := by
  obtain ⟨i1, -⟩ := invCore_reachable h
  obtain ⟨st, fa, cc, rc, ip, cr, aw, sw, ni, fA, fS, ci, lv⟩ := m
  simp only at hst
  subst hst
  have hrc : rc = false := by
    cases hrc : rc
    · rfl
    · exact absurd (i1.mp hrc) (by simp)
  subst hrc
  exact ⟨_, rfl, rfl, rfl, rfl, rfl, rfl⟩

/-- Witness for C6: from the initial machine, register a waiter, start in fail-fast
mode, then fail the first attempt with failure 3: the machine stops, no timer pends,
and waiter 0 is fired with that failure. -/
theorem failFast_first_failure_terminal_witness :
    ∃ mc : M ℕ ℕ, runV M0 [Ev.whenConnected, Ev.startAndFailTheFirstTime] = some mc ∧
      mc.state = S.connectingFirstTime ∧
      ∃ m', stepM mc (Ev.connectionFailed 3) = some (m', none) ∧
        m'.state = S.stopped ∧ m'.retryCall = false ∧
        m'.connectsIssued = mc.connectsIssued ∧ m'.awaiting = [] ∧
        m'.firedAwait = mc.firedAwait ++ mc.awaiting.map (fun i => (i, WVal.fail 3)) :=
  ⟨_, rfl, rfl, failFast_first_failure_terminal 3
    (runV_reachable Reachable.base
      (show runV (M0 : M ℕ ℕ) [Ev.whenConnected, Ev.startAndFailTheFirstTime] = some _ from rfl))
    rfl⟩

/-- C9: along every deliverable transition of the reachable machine, a new connect
attempt (an increment of connectsIssued by the _connect output) is issued only when no
attempt is in flight; a retry timer is pending after the transition only if it was
already pending (in Waiting) or none was pending before; and outside Waiting no retry
timer is pending — so there is at most one in-flight connect operation and at most one
pending retry timer at any time. -/
theorem single_inflight_single_timer {m m' : M Conn Fail} {e : Ev Conn Fail}
    {r : Option (DRes Conn Fail)} (h : Reachable m) (hv : validEv m e = true)
    (hs : stepM m e = some (m', r)) :
    (m'.connectsIssued = m.connectsIssued ∨
      (m'.connectsIssued = m.connectsIssued + 1 ∧ m.connectInProgress = false)) ∧
    (m'.retryCall = true → m.retryCall = false ∨ m.state = S.waiting) ∧
    (m'.state ≠ S.waiting → m'.retryCall = false) := by
  have hinv' := invCore_reachable (Reachable.step h hv hs)
  have hpost : m'.state ≠ S.waiting → m'.retryCall = false := by
    intro hne
    cases hrc : m'.retryCall
    · rfl
    · exact absurd (hinv'.1.mp hrc) hne
  refine ⟨?_, ?_, hpost⟩ <;>
  · obtain ⟨i1, -, -, i4, -, i6, -, -, -, -, -⟩ := invCore_reachable h
    obtain ⟨st, fa, cc, rc, ip, cr, aw, sw, ni, fA, fS, ci, lv⟩ := m
    cases e <;> cases st <;> (try cases cc) <;> simp only [stepM] at hs <;>
      first
      | exact Option.noConfusion hs
      | (injection hs with hp; injection hp with h1 h2; subst h1;
         simp_all [validEv, setState, connectM, waitForStopM, stopConnectingM,
           finishStoppingM, cancelConnectWaitersM, stopRetryingM, waitM, notifyWaitersM,
           notifyInitialConnectionFailedM, forgetConnectionM, awaitingConnectionM,
           resetFailedAttemptsM, deliverResolved, deliverMade, deliverClosed,
           deliverReconnect, unawaitM])

/-- Witness for C9 at the initial machine and the start input: the first connect attempt
is issued with none in flight, and no retry timer is pending. -/
theorem single_inflight_single_timer_witness :
    validEv (M0 : M ℕ ℕ) Ev.start = true ∧
    (((connectM (setState (M0 : M ℕ ℕ) S.connecting)).connectsIssued =
        (M0 : M ℕ ℕ).connectsIssued ∨
      ((connectM (setState (M0 : M ℕ ℕ) S.connecting)).connectsIssued =
          (M0 : M ℕ ℕ).connectsIssued + 1 ∧ (M0 : M ℕ ℕ).connectInProgress = false)) ∧
     ((connectM (setState (M0 : M ℕ ℕ) S.connecting)).retryCall = true →
        (M0 : M ℕ ℕ).retryCall = false ∨ (M0 : M ℕ ℕ).state = S.waiting) ∧
     ((connectM (setState (M0 : M ℕ ℕ) S.connecting)).state ≠ S.waiting →
        (connectM (setState (M0 : M ℕ ℕ) S.connecting)).retryCall = false)) :=
  ⟨rfl, single_inflight_single_timer (e := Ev.start) (r := none) Reachable.base rfl rfl⟩

/-- C10: when a connection attempt succeeds, the machine stores the proxy's wrapped
protocol (protocol._protocol) — for a proxy built by the disconnect factory, exactly the
protocol the caller-supplied factory built — fires every pending waiter with that same
unwrapped protocol, and every later whenConnected while still Connected returns it too. -/
theorem stored_connection_unwrapped {m : M Conn Fail} {A : Type}
    (factoryBuild : A → Conn) (addr : A) (h : Reachable m)
    (hst : m.state = S.connecting ∨ m.state = S.connectingFirstTime) :
    ∃ m', stepM m (Ev.connectionMade (buildProtocol factoryBuild addr)) = some (m', none) ∧
      m'.state = S.connected ∧
      m'.currentConnection = some (factoryBuild addr) ∧
      m'.firedAwait = m.firedAwait ++ m.awaiting.map (fun i => (i, WVal.conn (factoryBuild addr))) ∧
      stepM m' Ev.whenConnected = some (m', some (DRes.doneConn (factoryBuild addr))) := by
  obtain ⟨st, fa, cc, rc, ip, cr, aw, sw, ni, fA, fS, ci, lv⟩ := m
  simp only at hst
  rcases hst with hst | hst <;> subst hst <;>
    exact ⟨_, rfl, rfl, rfl, rfl, rfl⟩

/-- Witness for C10: from the initial machine after start, a successful connection built
by the factory fun a => a + 10 at address 1 stores the unwrapped protocol 11. -/
theorem stored_connection_unwrapped_witness :
    ∃ mc : M ℕ ℕ, runV M0 [Ev.start] = some mc ∧
      (mc.state = S.connecting ∨ mc.state = S.connectingFirstTime) ∧
      ∃ m', stepM mc (Ev.connectionMade (buildProtocol (fun a => a + 10) 1)) =
          some (m', none) ∧
        m'.state = S.connected ∧
        m'.currentConnection = some ((fun a => a + 10) 1) ∧
        m'.firedAwait = mc.firedAwait ++
          mc.awaiting.map (fun i => (i, WVal.conn ((fun a => a + 10) 1))) ∧
        stepM m' Ev.whenConnected = some (m', some (DRes.doneConn ((fun a => a + 10) 1))) :=
  ⟨_, rfl, Or.inl rfl, stored_connection_unwrapped (fun a => a + 10) 1
    (runV_reachable Reachable.base (show runV (M0 : M ℕ ℕ) [Ev.start] = some _ from rfl))
    (Or.inl rfl)⟩

/-- Flushing the pending stop waiters plus one fresh id keeps the fired log
duplicate-free. -/
theorem firedStop_nodup_one (fS sw : List ℕ) (ni : ℕ) (hfn : fS.Nodup)
    (hfb : ∀ i ∈ fS, i < ni) (hsn : sw.Nodup) (hsb : ∀ i ∈ sw, i < ni)
    (hdisj : ∀ i ∈ sw, i ∉ fS) : (fS ++ (sw ++ [ni])).Nodup := by
  refine List.Nodup.append hfn (List.Nodup.append hsn (List.nodup_singleton ni) ?_) ?_
  · intro a ha hb
    rw [List.mem_singleton] at hb
    exact absurd (hsb a ha) (by omega)
  · intro a ha hb
    rcases List.mem_append.mp hb with hb | hb
    · exact hdisj a hb ha
    · rw [List.mem_singleton] at hb
      exact absurd (hfb a ha) (by omega)

/-- Flushing the pending stop waiters plus two fresh ids keeps the fired log
duplicate-free. -/
theorem firedStop_nodup_two (fS sw : List ℕ) (ni : ℕ) (hfn : fS.Nodup)
    (hfb : ∀ i ∈ fS, i < ni) (hsn : sw.Nodup) (hsb : ∀ i ∈ sw, i < ni)
    (hdisj : ∀ i ∈ sw, i ∉ fS) : (fS ++ ((sw ++ [ni]) ++ [ni + 1])).Nodup := by
  have hmid : (sw ++ [ni]).Nodup := by
    refine List.Nodup.append hsn (List.nodup_singleton ni) ?_
    intro a ha hb
    rw [List.mem_singleton] at hb
    exact absurd (hsb a ha) (by omega)
  refine List.Nodup.append hfn
    (List.Nodup.append hmid (List.nodup_singleton (ni + 1)) ?_) ?_
  · intro a ha hb
    rw [List.mem_singleton] at hb
    rcases List.mem_append.mp ha with ha | ha
    · exact absurd (hsb a ha) (by omega)
    · rw [List.mem_singleton] at ha
      omega
  · intro a ha hb
    rcases List.mem_append.mp hb with hb | hb
    · rcases List.mem_append.mp hb with hb | hb
      · exact hdisj a hb ha
      · rw [List.mem_singleton] at hb
        exact absurd (hfb a ha) (by omega)
    · rw [List.mem_singleton] at hb
      exact absurd (hfb a ha) (by omega)

/-- C7: from any reachable state in which a caller can run (no cancellation mid-flight),
calling stop twice — each call returning its own completion deferred — followed by only
the machine's own internal shutdown events, ends with the machine Stopped, no stop
waiter pending, and both completion deferreds fired exactly once with success; a stop
in Init or Stopped returns an already-fired succeed(None). -/
theorem stop_idempotent [Inhabited Fail] {m : M Conn Fail} (h : Reachable m)
    (hcr : m.cancelRequested = false) : StopTwiceSpec m := by
  obtain ⟨i1c, i2c, i3c, i4c, i5c, i6c, i7c, i8c, i9c, i10c, i11c⟩ := invCore_reachable h
  obtain ⟨j1, j2, j3, j4, j5⟩ := invIds_reachable h
  obtain ⟨st, fa, cc, rc, ip, cr, aw, sw, ni, fA, fS, ci, lv⟩ := m
  simp only at hcr
  subst hcr
  cases st
  case init =>
    have hsw : sw = [] := i10c (by simp) (by simp)
    subst hsw
    refine ⟨_, _, [], _, _, _, [], _, rfl, ?_, rfl, rfl, rfl, ?_, rfl, rfl, rfl,
      ?_, ?_, ?_, ?_, ?_⟩
    · exact fun e he => absurd he (List.not_mem_nil e)
    · exact fun e he => absurd he (List.not_mem_nil e)
    · exact j4
    · exact Or.inl rfl
    · exact Or.inl rfl
    · exact fun i j h1 h2 => DRes.noConfusion h1
    · exact fun _ => rfl
  case stopped =>
    have hsw : sw = [] := i10c (by simp) (by simp)
    subst hsw
    refine ⟨_, _, [], _, _, _, [], _, rfl, ?_, rfl, rfl, rfl, ?_, rfl, rfl, rfl,
      ?_, ?_, ?_, ?_, ?_⟩
    · exact fun e he => absurd he (List.not_mem_nil e)
    · exact fun e he => absurd he (List.not_mem_nil e)
    · exact j4
    · exact Or.inl rfl
    · exact Or.inl rfl
    · exact fun i j h1 h2 => DRes.noConfusion h1
    · exact fun _ => rfl
  case waiting =>
    have hsw : sw = [] := i10c (by simp) (by simp)
    subst hsw
    refine ⟨_, _, [], _, _, _, [], _, rfl, ?_, rfl, rfl, rfl, ?_, rfl, rfl, rfl,
      ?_, ?_, ?_, ?_, ?_⟩
    · exact fun e he => absurd he (List.not_mem_nil e)
    · exact fun e he => absurd he (List.not_mem_nil e)
    · exact firedStop_nodup_one fS [] ni j4 j2 List.nodup_nil (by simp) (by simp)
    · exact Or.inr ⟨ni, rfl, by simp [forgetConnectionM, finishStoppingM, cancelConnectWaitersM, unawaitM, deliverClosed, deliverResolved, setState, waitForStopM, stopRetryingM, stopConnectingM]⟩
    · exact Or.inl rfl
    · exact fun i j h1 h2 => DRes.noConfusion h2
    · exact fun hor => absurd hor (by simp)
  case connectingFirstTime =>
    have hip : ip = true := i5c (Or.inl rfl)
    subst hip
    have hsw : sw = [] := i10c (by simp) (by simp)
    subst hsw
    refine ⟨_, _, [Ev.connectionFailed default], _, _, _, [], _, rfl, ?_, rfl, rfl, rfl,
      ?_, rfl, rfl, rfl, ?_, ?_, ?_, ?_, ?_⟩
    · intro e he
      rw [List.mem_singleton] at he
      subst he
      exact Or.inl ⟨default, rfl⟩
    · exact fun e he => absurd he (List.not_mem_nil e)
    · exact firedStop_nodup_one fS [] ni j4 j2 List.nodup_nil (by simp) (by simp)
    · exact Or.inr ⟨ni, rfl, by simp [forgetConnectionM, finishStoppingM, cancelConnectWaitersM, unawaitM, deliverClosed, deliverResolved, setState, waitForStopM, stopRetryingM, stopConnectingM]⟩
    · exact Or.inl rfl
    · exact fun i j h1 h2 => DRes.noConfusion h2
    · exact fun hor => absurd hor (by simp)
  case connecting =>
    have hip : ip = true := i5c (Or.inr rfl)
    subst hip
    have hsw : sw = [] := i10c (by simp) (by simp)
    subst hsw
    refine ⟨_, _, [Ev.connectionFailed default], _, _, _, [], _, rfl, ?_, rfl, rfl, rfl,
      ?_, rfl, rfl, rfl, ?_, ?_, ?_, ?_, ?_⟩
    · intro e he
      rw [List.mem_singleton] at he
      subst he
      exact Or.inl ⟨default, rfl⟩
    · exact fun e he => absurd he (List.not_mem_nil e)
    · exact firedStop_nodup_one fS [] ni j4 j2 List.nodup_nil (by simp) (by simp)
    · exact Or.inr ⟨ni, rfl, by simp [forgetConnectionM, finishStoppingM, cancelConnectWaitersM, unawaitM, deliverClosed, deliverResolved, setState, waitForStopM, stopRetryingM, stopConnectingM]⟩
    · exact Or.inl rfl
    · exact fun i j h1 h2 => DRes.noConfusion h2
    · exact fun hor => absurd hor (by simp)
  case connected =>
    have hlv : lv = true := (i3c rfl).1
    subst hlv
    have hsw : sw = [] := i10c (by simp) (by simp)
    subst hsw
    refine ⟨_, _, [], _, _, _, [Ev.clientDisconnected], _, rfl, ?_, rfl, rfl, rfl,
      ?_, rfl, rfl, rfl, ?_, ?_, ?_, ?_, ?_⟩
    · exact fun e he => absurd he (List.not_mem_nil e)
    · intro e he
      rw [List.mem_singleton] at he
      subst he
      exact Or.inr rfl
    · exact firedStop_nodup_two fS [] ni j4 j2 List.nodup_nil (by simp) (by simp)
    · exact Or.inr ⟨ni, rfl, by simp [forgetConnectionM, finishStoppingM, cancelConnectWaitersM, unawaitM, deliverClosed, deliverResolved, setState, waitForStopM, stopRetryingM, stopConnectingM]⟩
    · exact Or.inr ⟨ni + 1, rfl, by simp [forgetConnectionM, finishStoppingM, cancelConnectWaitersM, unawaitM, deliverClosed, deliverResolved, setState, waitForStopM, stopRetryingM, stopConnectingM]⟩
    · intro i j h1 h2
      injection h1 with hi
      injection h2 with hj
      simp only [waitForStopM, setState] at hi hj
      omega
    · exact fun hor => absurd hor (by simp)
  case disconnecting =>
    have hlv : lv = true := (i8c rfl rfl).1
    subst hlv
    refine ⟨_, _, [], _, _, _, [Ev.clientDisconnected], _, rfl, ?_, rfl, rfl, rfl,
      ?_, rfl, rfl, rfl, ?_, ?_, ?_, ?_, ?_⟩
    · exact fun e he => absurd he (List.not_mem_nil e)
    · intro e he
      rw [List.mem_singleton] at he
      subst he
      exact Or.inr rfl
    · exact firedStop_nodup_two fS sw ni j4 j2 j3 j1 j5
    · exact Or.inr ⟨ni, rfl, by simp [forgetConnectionM, finishStoppingM, cancelConnectWaitersM, unawaitM, deliverClosed, deliverResolved, setState, waitForStopM, stopRetryingM, stopConnectingM]⟩
    · exact Or.inr ⟨ni + 1, rfl, by simp [forgetConnectionM, finishStoppingM, cancelConnectWaitersM, unawaitM, deliverClosed, deliverResolved, setState, waitForStopM, stopRetryingM, stopConnectingM]⟩
    · intro i j h1 h2
      injection h1 with hi
      injection h2 with hj
      simp only [waitForStopM, setState] at hi hj
      omega
    · exact fun hor => absurd hor (by simp)
  case restarting =>
    have hlv : lv = true := (i9c rfl).1
    subst hlv
    refine ⟨_, _, [], _, _, _, [Ev.clientDisconnected], _, rfl, ?_, rfl, rfl, rfl,
      ?_, rfl, rfl, rfl, ?_, ?_, ?_, ?_, ?_⟩
    · exact fun e he => absurd he (List.not_mem_nil e)
    · intro e he
      rw [List.mem_singleton] at he
      subst he
      exact Or.inr rfl
    · exact firedStop_nodup_two fS sw ni j4 j2 j3 j1 j5
    · exact Or.inr ⟨ni, rfl, by simp [forgetConnectionM, finishStoppingM, cancelConnectWaitersM, unawaitM, deliverClosed, deliverResolved, setState, waitForStopM, stopRetryingM, stopConnectingM]⟩
    · exact Or.inr ⟨ni + 1, rfl, by simp [forgetConnectionM, finishStoppingM, cancelConnectWaitersM, unawaitM, deliverClosed, deliverResolved, setState, waitForStopM, stopRetryingM, stopConnectingM]⟩
    · intro i j h1 h2
      injection h1 with hi
      injection h2 with hj
      simp only [waitForStopM, setState] at hi hj
      omega
    · exact fun hor => absurd hor (by simp)

/-- Witness for C7 at the initial machine. -/
theorem stop_idempotent_witness :
    (M0 : M ℕ ℕ).cancelRequested = false ∧ StopTwiceSpec (M0 : M ℕ ℕ) :=
  ⟨rfl, stop_idempotent Reachable.base rfl⟩

end Wormhole
